import Mathlib

/-!
Verification of the Clin.IA backend (backend/app.py, backend/llm_processor.py,
backend/docs_generator.py, backend/transcription.py) against its specification.

Shallow embedding conventions: Python strings are `List Char` (or `String` when
only used as keys or opaque payloads), JSON values are `JVal`, Python dicts are
insertion-ordered association lists, and fallible code returns `Except`/`Option`.
-/

namespace ClinIA

/-- Backtick character, written via its code point. -/
def backtick : Char := Char.ofNat 96

/-- Opening curly brace character, written via its code point. -/
def lbrace : Char := Char.ofNat 123

/-- Closing curly brace character, written via its code point. -/
def rbrace : Char := Char.ofNat 125

/-- Single-quote character, written via its code point. -/
def squote : Char := Char.ofNat 39

/-- JSON values as produced by Python `json.loads`: null, booleans, numbers
(restricted to the integer numerals that actually occur in this pipeline),
strings, arrays, and objects modelled as insertion-ordered association lists. -/
inductive JVal where
  | null : JVal
  | bool (b : Bool) : JVal
  | num (n : Int) : JVal
  | str (s : String) : JVal
  | arr (elems : List JVal) : JVal
  | obj (fields : List (String × JVal)) : JVal

/-- Python truthiness of a JSON-derived value (`bool(v)`): `None`, `False`,
`0`, empty strings and empty containers are falsy, everything else truthy. -/
def pyTruthy : JVal → Bool
  | .null => false
  | .bool b => b
  | .num n => n != 0
  | .str s => !s.isEmpty
  | .arr l => !l.isEmpty
  | .obj l => !l.isEmpty

/-- The four clinical sections checked by the schema validator. -/
def clinicalSections : List String := ["subjetivo", "objetivo", "evaluacion", "plan"]

/-- Model of `LLMProcessor.validate_against_schema` (llm_processor.py lines
202-226): fail when `informacion_paciente` is missing, otherwise scan the four
clinical sections for at least one present and truthy entry. -/
def validateAgainstSchema (data : List (String × JVal)) : Bool × Option String :=
  if (List.lookup "informacion_paciente" data).isNone then
    (false, some "Missing required field: informacion_paciente")
  else
    let hasContent := clinicalSections.any fun s =>
      match List.lookup s data with
      | some v => pyTruthy v
      | none => false
    if !hasContent then (false, some "No meaningful medical data extracted")
    else (true, none)

/-- Presence-and-truthiness of one clinical section, as the validator tests it. -/
def sectionHasContent (data : List (String × JVal)) (s : String) : Bool :=
  match List.lookup s data with
  | some v => pyTruthy v
  | none => false

/-- C7: `validate_against_schema` returns ok = false exactly when the
patient-info section (`informacion_paciente`) is absent, or when all four
clinical sections are absent or empty (Python-falsy); otherwise it returns
`(true, none)`, i.e. valid with no reason. -/
theorem validateAgainstSchema_spec (data : List (String × JVal)) :
    ((validateAgainstSchema data).1 = false ↔
      (List.lookup "informacion_paciente" data = none ∨
        ∀ s ∈ clinicalSections, sectionHasContent data s = false)) ∧
    ((validateAgainstSchema data).1 = true ↔ validateAgainstSchema data = (true, none)) := by
  unfold validateAgainstSchema
  rcases h : List.lookup "informacion_paciente" data with _ | v
  · simp [h]
  · simp only [h, Option.isNone_some, Bool.false_eq_true, if_false]
    rcases hc : clinicalSections.any fun s =>
        match List.lookup s data with
        | some v => pyTruthy v
        | none => false with _ | _
    · simp only [Bool.not_false, if_true]
      refine ⟨⟨fun _ => Or.inr fun s hs => ?_, fun _ => by simp⟩, by simp⟩
      rw [List.any_eq_false] at hc
      simpa [sectionHasContent] using hc s hs
    · simp only [Bool.not_true, Bool.false_eq_true, if_false]
      refine ⟨⟨by simp, ?_⟩, by simp⟩
      rintro (hnone | hall)
      · exact absurd hnone (by simp)
      · rw [List.any_eq_true] at hc
        obtain ⟨s, hs, hp⟩ := hc
        have hsec := hall s hs
        rw [sectionHasContent] at hsec
        rw [hsec] at hp
        exact absurd hp (by simp)

/-- Python `str.strip` whitespace test: space, tab, newline, carriage return,
vertical tab, form feed. -/
def isPySpace (c : Char) : Bool :=
  (c = ' ') || (c = '\t') || (c = '\n') || (c = '\r') ||
    (c = Char.ofNat 11) || (c = Char.ofNat 12)

/-- Python `str.strip()`: drop leading and trailing whitespace. -/
def pyStrip (s : List Char) : List Char :=
  ((s.dropWhile isPySpace).reverse.dropWhile isPySpace).reverse

/-- Result of `TranscriptionService.transcribe_audio` (transcription.py lines
52-58): transcript text plus metadata surfaced untouched from the provider. -/
structure TranscriptResult where
  text : List Char
  confidence : Int
  audioDurationMs : Nat
  words : Nat

/-- A Python exception carrying its message. -/
structure PyErr where
  msg : String

/-- Result record of `GoogleDocsGenerator.create_medical_note`
(docs_generator.py line 66). -/
structure DocInfo where
  documentId : String
  link : String
  title : String

/-- The `document` portion of the orchestrator response: absent when no
document was requested, a `DocInfo` on success, or the error record
`{'error': ..., 'details': ...}` built at app.py lines 232-235. -/
inductive DocField where
  | absent : DocField
  | ok (info : DocInfo) : DocField
  | errRec (error details : String) : DocField

/-- The success payload assembled at app.py lines 240-252.  The transcript
sub-object is kept as the raw `TranscriptResult`; the source derives its
fields (text, confidence, duration, word count) from this same record. -/
structure SuccessResponse where
  sessionId : String
  transcript : TranscriptResult
  structuredData : JVal
  document : DocField

/-- Outcome of one `/api/process-audio` request, as seen by the client. -/
inductive HttpResult where
  | unhandled (e : PyErr) : HttpResult
  | badRequest (error : String) : HttpResult
  | badRequestTooShort (error : String) (transcript : List Char) : HttpResult
  | serverError (error details : String) : HttpResult
  | serverErrorWithTranscript (error details : String) (transcript : List Char) : HttpResult
  | okResponse (r : SuccessResponse) : HttpResult

/-- Side effects of one `/api/process-audio` request: temporary-file lifecycle,
number of calls made to each remote collaborator, and the session-cache write. -/
structure ProcState where
  tempSaved : Bool := false
  tempExists : Bool := false
  transcribeCalls : Nat := 0
  llmCalls : Nat := 0
  docCalls : Nat := 0
  stored : Option (String × SuccessResponse) := none

/-- Inputs of one `/api/process-audio` request: whether the multipart form has
an `audio` part, its filename, and the two boolean flags. -/
structure ProcRequest where
  hasAudio : Bool
  filename : String
  printRaw : Bool
  createDoc : Bool

/-- Outcomes of the remote collaborators for one request.  `docsGenInit`
models line 117 (`docs_generator = GoogleDocsGenerator()`); in the source the
name `GoogleDocsGenerator` is never imported (the import at line 8 is
commented out), so this step always raises `NameError` — see
`sourceDocsGenInit`.  It is kept as a parameter so the handler's subsequent
paths can be analysed as written. -/
structure Oracles where
  docsGenInit : Except PyErr Unit
  transcribe : Except PyErr TranscriptResult
  extractResult : Except PyErr JVal
  createNote : Except PyErr DocInfo

/-- The actual outcome of line 117 in the source: `GoogleDocsGenerator` is an
unbound name, so Python raises `NameError` before the `try` block is entered. -/
def sourceDocsGenInit : Except PyErr Unit :=
  .error ⟨"name GoogleDocsGenerator is not defined"⟩

/-- Model of the `process_audio` handler (app.py lines 109-274).

Control flow mirrors the source: the docs-generator construction at line 117
sits before the `try`, so its failure escapes the handler (`unhandled`);
request validation (lines 120-126); save to a temporary path (lines 140-145);
Phase A transcription inside `try/except/finally`, whose `finally` (lines
177-181) removes the temporary file on success, on the too-short rejection and
on transcription failure alike; Phase B extraction with a fatal error path
(lines 199-205); Phase C document creation whose failure degrades to the
inline error record (lines 229-235); and the final response assembly plus
session-cache write (lines 238-264).  The timestamp-derived session id is an
input parameter. -/
def processAudio (o : Oracles) (req : ProcRequest) (sid : String) : HttpResult × ProcState :=
  match o.docsGenInit with
  | .error e => (.unhandled e, {})
  | .ok _ =>
    if !req.hasAudio then (.badRequest "No audio file provided", {})
    else if req.filename = "" then (.badRequest "Empty filename", {})
    else
      let st : ProcState := { tempSaved := true, tempExists := true }
      match o.transcribe with
      | .error e =>
        (.serverError "Transcription failed" e.msg,
          { st with transcribeCalls := 1, tempExists := false })
      | .ok tr =>
        let st := { st with transcribeCalls := 1, tempExists := false }
        if (pyStrip tr.text).length < 10 then
          (.badRequestTooShort "Transcription too short or empty" tr.text, st)
        else
          match o.extractResult with
          | .error e =>
            (.serverErrorWithTranscript "LLM processing failed" e.msg tr.text,
              { st with llmCalls := 1 })
          | .ok sd =>
            let st := { st with llmCalls := 1 }
            let document :=
              if req.createDoc then
                match o.createNote with
                | .ok info => DocField.ok info
                | .error e => DocField.errRec "Failed to create Google Doc" e.msg
              else DocField.absent
            let st := if req.createDoc then { st with docCalls := 1 } else st
            let resp : SuccessResponse :=
              { sessionId := sid, transcript := tr, structuredData := sd, document := document }
            (.okResponse resp, { st with stored := some (sid, resp) })

/-- C4: whenever the audio artifact was saved to the temporary path, the
temporary file no longer exists when the handler exits — on every exit path
(success, transcription failure, too-short rejection, extraction failure,
render failure). -/
theorem processAudio_temp_cleanup (o : Oracles) (req : ProcRequest) (sid : String)
    (hsaved : (processAudio o req sid).2.tempSaved = true) :
    (processAudio o req sid).2.tempExists = false := by
  unfold processAudio at *
  rcases o with ⟨init, tsc, ext, cn⟩
  rcases init with e | u
  · simp at hsaved
  · simp only at hsaved ⊢
    rcases req with ⟨ha, fn, pr, cd⟩
    rcases ha with _ | _
    · simp at hsaved
    · simp only [Bool.not_true, Bool.false_eq_true, if_false] at hsaved ⊢
      by_cases hfn : fn = ""
      · simp [hfn] at hsaved
      · simp only [hfn, if_false] at hsaved ⊢
        rcases tsc with e | tr
        · rfl
        · simp only at hsaved ⊢
          by_cases hlen : (pyStrip tr.text).length < 10
          · simp [hlen]
          · simp only [hlen, if_false] at hsaved ⊢
            rcases ext with e | sd
            · rfl
            · simp only at hsaved ⊢
              rcases cd with _ | _ <;> simp

/-- Witness for C4: a run where the file is saved (all oracles succeed) ends
with the temporary file removed. -/
theorem processAudio_temp_cleanup_witness :
    (processAudio
        ⟨.ok (), .ok ⟨"0123456789abc".toList, 1, 1000, 3⟩, .ok (.obj []), .ok ⟨"d", "l", "t"⟩⟩
        ⟨true, "consulta.wav", true, true⟩ "session_1").2.tempSaved = true ∧
    (processAudio
        ⟨.ok (), .ok ⟨"0123456789abc".toList, 1, 1000, 3⟩, .ok (.obj []), .ok ⟨"d", "l", "t"⟩⟩
        ⟨true, "consulta.wav", true, true⟩ "session_1").2.tempExists = false := by
  refine ⟨by decide, processAudio_temp_cleanup _ _ _ (by decide)⟩

/-- C5: when document creation is requested and every earlier phase succeeds,
a failure inside document rendering does not fail the request: the handler
still returns the success response, with the document reference replaced by
the error record and the transcript and structured data intact. -/
theorem processAudio_render_failure_degrades (o : Oracles) (req : ProcRequest) (sid : String)
    (tr : TranscriptResult) (sd : JVal) (e : PyErr)
    (hinit : o.docsGenInit = .ok ())
    (haudio : req.hasAudio = true) (hname : req.filename ≠ "")
    (htr : o.transcribe = .ok tr) (hlen : ¬ (pyStrip tr.text).length < 10)
    (hext : o.extractResult = .ok sd)
    (hcd : req.createDoc = true) (hdoc : o.createNote = .error e) :
    processAudio o req sid =
      (.okResponse
        { sessionId := sid, transcript := tr, structuredData := sd,
          document := .errRec "Failed to create Google Doc" e.msg },
       { tempSaved := true, tempExists := false, transcribeCalls := 1,
         llmCalls := 1, docCalls := 1,
         stored := some (sid,
          { sessionId := sid, transcript := tr, structuredData := sd,
            document := .errRec "Failed to create Google Doc" e.msg }) }) := by
  unfold processAudio
  rw [hinit, haudio, htr, hext, hcd, hdoc]
  simp [hname, hlen]

/-- Witness for C5: with concrete successful phases and a failing renderer,
the request completes with the embedded document error. -/
theorem processAudio_render_failure_degrades_witness :
    processAudio
        ⟨.ok (), .ok ⟨"0123456789abc".toList, 1, 1000, 3⟩, .ok (.obj [("plan", .str "x")]),
          .error ⟨"HttpError 403"⟩⟩
        ⟨true, "consulta.wav", true, true⟩ "session_2" =
      (.okResponse
        { sessionId := "session_2",
          transcript := ⟨"0123456789abc".toList, 1, 1000, 3⟩,
          structuredData := .obj [("plan", .str "x")],
          document := .errRec "Failed to create Google Doc" "HttpError 403" },
       { tempSaved := true, tempExists := false, transcribeCalls := 1,
         llmCalls := 1, docCalls := 1,
         stored := some ("session_2",
          { sessionId := "session_2",
            transcript := ⟨"0123456789abc".toList, 1, 1000, 3⟩,
            structuredData := .obj [("plan", .str "x")],
            document := .errRec "Failed to create Google Doc" "HttpError 403" }) }) :=
  processAudio_render_failure_degrades _ _ _ _ _ _ rfl rfl (by decide) rfl (by decide) rfl rfl rfl

/-- C6 (code bug): because `GoogleDocsGenerator` is referenced at app.py line
117 without ever being imported, every `/api/process-audio` request — in
particular one with the audio part missing or an empty filename — escapes with
a `NameError` before the validation checks at lines 120-126 can run; the
request is not rejected with the documented validation error, although no
remote call is made either. -/
theorem processAudio_nameError_preempts_validation
    (tsc : Except PyErr TranscriptResult) (ext : Except PyErr JVal)
    (cn : Except PyErr DocInfo) (req : ProcRequest) (sid : String) :
    processAudio ⟨sourceDocsGenInit, tsc, ext, cn⟩ req sid =
      (.unhandled ⟨"name GoogleDocsGenerator is not defined"⟩, {}) ∧
    (processAudio ⟨sourceDocsGenInit, tsc, ext, cn⟩ req sid).2.transcribeCalls = 0 := by
  constructor <;> rfl

/-- Model of the process-wide session cache (app.py line 83) together with the
`get_session` lookup (lines 353-359). -/
def getSession (storage : List (String × SuccessResponse)) (sid : String) :
    Except String SuccessResponse :=
  match List.lookup sid storage with
  | some r => .ok r
  | none => .error "Session not found"

/-- Deterministic export file name derived from the session id
(app.py line 374). -/
def exportFileName (sid : String) : String := "clinia_" ++ sid ++ ".json"

/-- Model of the `export_json` endpoint (app.py lines 362-376): 404 for an
unknown session id, otherwise the `structured_data` portion of the stored
record under the deterministic attachment file name. -/
def exportJson (storage : List (String × SuccessResponse)) (sid : String) :
    Except String (JVal × String) :=
  match List.lookup sid storage with
  | none => .error "Session not found"
  | some r => .ok (r.structuredData, exportFileName sid)

/-- C8: for a session id present in the cache, export returns exactly the
stored record's `structured_data` (nothing more) under the file name
`clinia_<sid>.json`, and lookup returns the stored record; for an id not in
the cache, both export and lookup fail with the not-found error. -/
theorem exportJson_spec (storage : List (String × SuccessResponse)) (sid : String) :
    (exportJson storage sid, getSession storage sid) =
      match List.lookup sid storage with
      | some r => (.ok (r.structuredData, exportFileName sid), .ok r)
      | none => (.error "Session not found", .error "Session not found") := by
  unfold exportJson getSession
  rcases List.lookup sid storage with _ | r <;> rfl

/-- Prefix test on character lists, used to model Python substring search. -/
def pyIsPrefixOf : List Char → List Char → Bool
  | [], _ => true
  | _ :: _, [] => false
  | c :: cs, d :: ds => (c = d) && pyIsPrefixOf cs ds

/-- Python `sep in s` substring test. -/
def pyContains (sep : List Char) : List Char → Bool
  | [] => pyIsPrefixOf sep []
  | c :: rest => pyIsPrefixOf sep (c :: rest) || pyContains sep rest

/-- Python `s.split(sep)` for a non-empty separator: cut at each leftmost
non-overlapping occurrence of `sep`. -/
def pySplit (sep : List Char) : List Char → List (List Char)
  | [] => [[]]
  | c :: rest =>
    if 0 < sep.length ∧ pyIsPrefixOf sep (c :: rest) = true then
      [] :: pySplit sep (rest.drop (sep.length - 1))
    else
      match pySplit sep rest with
      | [] => [[c]]
      | hd :: tl => (c :: hd) :: tl
termination_by s => s.length
decreasing_by
  · simp only [List.length_drop, List.length_cons]; omega
  · simp only [List.length_cons]; omega

/-- A list is a prefix of itself extended by anything. -/
theorem pyIsPrefixOf_append (s t : List Char) : pyIsPrefixOf s (s ++ t) = true := by
  induction s with
  | nil => rfl
  | cons c cs ih => simp [pyIsPrefixOf, ih]

/-- A separator whose first character is absent from `t` does not occur in `t`. -/
theorem pyContains_of_head_notMem (c : Char) (sep' t : List Char)
    (ht : ∀ x ∈ t, x ≠ c) : pyContains (c :: sep') t = false := by
  induction t with
  | nil => rfl
  | cons d t' ih =>
    rw [pyContains]
    have hd : d ≠ c := ht d (List.mem_cons_self d t')
    have h1 : pyIsPrefixOf (c :: sep') (d :: t') = false := by
      rw [pyIsPrefixOf]
      simp [Ne.symm hd]
    rw [h1, ih fun x hx => ht x (List.mem_cons_of_mem d hx)]
    rfl

/-- Prepending characters different from the separator's first character
cannot create an occurrence. -/
theorem pyContains_append_left (c : Char) (sep' a t : List Char)
    (ha : ∀ x ∈ a, x ≠ c) (ht : pyContains (c :: sep') t = false) :
    pyContains (c :: sep') (a ++ t) = false := by
  induction a with
  | nil => simpa
  | cons d a' ih =>
    rw [List.cons_append, pyContains]
    have hd : d ≠ c := ha d (List.mem_cons_self d a')
    have h1 : pyIsPrefixOf (c :: sep') (d :: (a' ++ t)) = false := by
      rw [pyIsPrefixOf]
      simp [Ne.symm hd]
    rw [h1, ih fun x hx => ha x (List.mem_cons_of_mem d hx)]
    rfl

/-- The separator does occur in `a ++ sep ++ b`. -/
theorem pyContains_append_sep (c : Char) (sep' a b : List Char) :
    pyContains (c :: sep') (a ++ (c :: sep') ++ b) = true := by
  induction a with
  | nil =>
    rw [List.nil_append, List.cons_append, pyContains]
    have : pyIsPrefixOf (c :: sep') (c :: (sep' ++ b)) = true := by
      have := pyIsPrefixOf_append (c :: sep') b
      simpa using this
    simp [this]
  | cons d a' ih =>
    rw [List.cons_append, List.cons_append, pyContains]
    have ih2 : pyContains (c :: sep') (a' ++ c :: (sep' ++ b)) = true := by
      simpa using ih
    simp [ih2]

/-- With no occurrence, Python split returns the whole string. -/
theorem pySplit_of_not_contains (sep s : List Char)
    (h : pyContains sep s = false) : pySplit sep s = [s] := by
  induction s with
  | nil => simp [pySplit]
  | cons c rest ih =>
    rw [pyContains, Bool.or_eq_false_iff] at h
    rw [pySplit, if_neg (by simp [h.1]), ih h.2]

/-- Splitting `a ++ sep ++ b` when the separator's first character does not
occur in `a`: the first cut happens exactly at the planted separator. -/
theorem pySplit_append_sep (c : Char) (sep' a b : List Char)
    (ha : ∀ x ∈ a, x ≠ c) :
    pySplit (c :: sep') (a ++ (c :: sep') ++ b) = a :: pySplit (c :: sep') b := by
  induction a with
  | nil =>
    rw [List.nil_append, List.cons_append, pySplit]
    have hpre : pyIsPrefixOf (c :: sep') (c :: (sep' ++ b)) = true := by
      have := pyIsPrefixOf_append (c :: sep') b
      simpa using this
    rw [if_pos ⟨by simp, hpre⟩]
    simp
  | cons d a' ih =>
    have hd : d ≠ c := ha d (List.mem_cons_self d a')
    have hpre : pyIsPrefixOf (c :: sep') (d :: (a' ++ (c :: sep') ++ b)) = false := by
      rw [pyIsPrefixOf]
      simp [Ne.symm hd]
    rw [List.cons_append, List.cons_append, pySplit]
    rw [if_neg (by simp_all), ih fun x hx => ha x (List.mem_cons_of_mem d hx)]

/-- The labelled fence marker, three backticks followed by the letters json. -/
def fenceJson : List Char := [backtick, backtick, backtick, 'j', 's', 'o', 'n']

/-- The plain fence marker, three backticks. -/
def fence3 : List Char := [backtick, backtick, backtick]

/-- First index satisfying a predicate, used to model Python `find`. -/
def pyFindIdx (p : Char → Bool) : List Char → Option Nat
  | [] => none
  | c :: rest => if p c then some 0 else (pyFindIdx p rest).map (· + 1)

/-- Python `s.find(ch)`, with the `-1` sentinel modelled by `none`. -/
def pyFind (ch : Char) (s : List Char) : Option Nat :=
  pyFindIdx (fun x => x = ch) s

/-- Python `s.rfind(ch)`, with the `-1` sentinel modelled by `none`. -/
def pyRFind (ch : Char) (s : List Char) : Option Nat :=
  (pyFindIdx (fun x => x = ch) s.reverse).map (fun i => s.length - 1 - i)

/-- Model of `LLMProcessor._clean_json_response` (llm_processor.py lines
174-200): prefer the interior of a backtick-json labelled fence (split on the
label, take part 1, then split on the plain fence and take part 0), else the
interior of any plain fence; strip whitespace; finally slice from the first
opening brace to the last closing brace inclusive when both are present.
Python's `split(sep)[1]` is in-bounds here because it is guarded by the `in`
test, so `getD` never falls back to its default. -/
def cleanJsonResponse (response : List Char) : List Char :=
  let r1 :=
    if pyContains fenceJson response then
      (pySplit fence3 ((pySplit fenceJson response).getD 1 [])).getD 0 []
    else if pyContains fence3 response then
      (pySplit fence3 ((pySplit fence3 response).getD 1 [])).getD 0 []
    else response
  let r2 := pyStrip r1
  match pyFind lbrace r2, pyRFind rbrace r2 with
  | some i, some j => (r2.take (j + 1)).drop i
  | _, _ => r2

/-- An LLM response consisting of body `J` wrapped in a labelled fenced code
block, surrounded by free prose: `prose1 + "fenceJson\n" + J + "\nfence3\n" +
prose2`. -/
def fenceWrap (prose1 J prose2 : List Char) : List Char :=
  prose1 ++ fenceJson ++ ('\n' :: J) ++ ('\n' :: fence3) ++ ('\n' :: prose2)

/-- Prefix test steps over equal heads. -/
theorem pyIsPrefixOf_cons_eq (x y : Char) (xs ys : List Char) (h : x = y) :
    pyIsPrefixOf (x :: xs) (y :: ys) = pyIsPrefixOf xs ys := by
  rw [pyIsPrefixOf]
  simp [h]

/-- Prefix test fails on distinct heads. -/
theorem pyIsPrefixOf_cons_ne (x y : Char) (xs ys : List Char) (h : x ≠ y) :
    pyIsPrefixOf (x :: xs) (y :: ys) = false := by
  rw [pyIsPrefixOf]
  simp [h]

/-- The labelled fence marker does not occur in the closing fence followed by
a newline and backtick-free prose. -/
theorem pyContains_fenceJson_closing (p2 : List Char)
    (h2 : ∀ x ∈ p2, x ≠ backtick) :
    pyContains fenceJson (fence3 ++ '\n' :: p2) = false := by
  have hp : pyContains fenceJson ('\n' :: p2) = false := by
    refine pyContains_of_head_notMem backtick _ _ ?_
    intro x hx
    rcases List.mem_cons.mp hx with h | h
    · subst h; decide
    · exact h2 x h
  have e1 : pyIsPrefixOf fenceJson (backtick :: backtick :: backtick :: '\n' :: p2) = false := by
    show pyIsPrefixOf [backtick, backtick, backtick, 'j', 's', 'o', 'n']
        (backtick :: backtick :: backtick :: '\n' :: p2) = false
    rw [pyIsPrefixOf_cons_eq _ _ _ _ rfl, pyIsPrefixOf_cons_eq _ _ _ _ rfl,
      pyIsPrefixOf_cons_eq _ _ _ _ rfl, pyIsPrefixOf_cons_ne _ _ _ _ (by decide)]
  have e2 : pyIsPrefixOf fenceJson (backtick :: backtick :: '\n' :: p2) = false := by
    show pyIsPrefixOf [backtick, backtick, backtick, 'j', 's', 'o', 'n']
        (backtick :: backtick :: '\n' :: p2) = false
    rw [pyIsPrefixOf_cons_eq _ _ _ _ rfl, pyIsPrefixOf_cons_eq _ _ _ _ rfl,
      pyIsPrefixOf_cons_ne _ _ _ _ (by decide)]
  have e3 : pyIsPrefixOf fenceJson (backtick :: '\n' :: p2) = false := by
    show pyIsPrefixOf [backtick, backtick, backtick, 'j', 's', 'o', 'n']
        (backtick :: '\n' :: p2) = false
    rw [pyIsPrefixOf_cons_eq _ _ _ _ rfl, pyIsPrefixOf_cons_ne _ _ _ _ (by decide)]
  show pyContains fenceJson
      (backtick :: backtick :: backtick :: '\n' :: p2) = false
  rw [pyContains, pyContains, pyContains, hp, e1, e2, e3]
  rfl

/-- Splitting the wrapped response on the labelled fence and then on the plain
fence recovers the fence interior (the body with its surrounding newlines),
provided the prose and the body are backtick-free. -/
theorem fenceWrap_extract (p1 J p2 : List Char)
    (h1 : ∀ x ∈ p1, x ≠ backtick) (h2 : ∀ x ∈ p2, x ≠ backtick)
    (hJ : ∀ x ∈ J, x ≠ backtick) :
    (pySplit fence3 ((pySplit fenceJson (fenceWrap p1 J p2)).getD 1 [])).getD 0 []
      = '\n' :: (J ++ ['\n']) := by
  have hJn : ∀ x ∈ '\n' :: (J ++ ['\n']), x ≠ backtick := by
    intro x hx
    rcases List.mem_cons.mp hx with h | h
    · subst h; decide
    · rcases List.mem_append.mp h with h | h
      · exact hJ x h
      · simp at h; subst h; decide
  have hnof : pyContains fenceJson
      (('\n' :: (J ++ ['\n'])) ++ ([backtick, backtick, backtick] ++ ('\n' :: p2))) = false := by
    exact pyContains_append_left backtick [backtick, backtick, 'j', 's', 'o', 'n'] _ _ hJn
      (pyContains_fenceJson_closing p2 h2)
  have hsplit1 : pySplit fenceJson (fenceWrap p1 J p2)
      = p1 :: pySplit fenceJson
          (('\n' :: (J ++ ['\n'])) ++ ([backtick, backtick, backtick] ++ ('\n' :: p2))) := by
    have h := pySplit_append_sep backtick [backtick, backtick, 'j', 's', 'o', 'n'] p1
      ((('\n' :: (J ++ ['\n'])) ++ ([backtick, backtick, backtick] ++ ('\n' :: p2)))) h1
    have hshape : fenceWrap p1 J p2
        = p1 ++ (backtick :: [backtick, backtick, 'j', 's', 'o', 'n'])
            ++ (('\n' :: (J ++ ['\n'])) ++ ([backtick, backtick, backtick] ++ ('\n' :: p2))) := by
      simp [fenceWrap, fenceJson, fence3]
    rw [hshape]
    exact h
  rw [hsplit1, pySplit_of_not_contains _ _ hnof]
  rw [List.getD_cons_succ, List.getD_cons_zero]
  have hsplit3 : pySplit fence3
      (('\n' :: (J ++ ['\n'])) ++ ([backtick, backtick, backtick] ++ ('\n' :: p2)))
      = ('\n' :: (J ++ ['\n'])) :: pySplit fence3 ('\n' :: p2) := by
    have h := pySplit_append_sep backtick [backtick, backtick]
      ('\n' :: (J ++ ['\n'])) ('\n' :: p2) hJn
    have hshape : (('\n' :: (J ++ ['\n'])) ++ ([backtick, backtick, backtick] ++ ('\n' :: p2)))
        = ('\n' :: (J ++ ['\n'])) ++ (backtick :: [backtick, backtick]) ++ ('\n' :: p2) := by
      simp
    rw [hshape]
    exact h
  rw [hsplit3, List.getD_cons_zero]

/-- Stripping the fence interior of a brace-delimited body removes exactly the
two surrounding newlines. -/
theorem pyStrip_wrapped_obj (mid : List Char) :
    pyStrip ('\n' :: ((lbrace :: (mid ++ [rbrace])) ++ ['\n'])) = lbrace :: (mid ++ [rbrace]) := by
  have h1 : isPySpace '\n' = true := by decide
  have h2 : isPySpace lbrace = false := by decide
  have h3 : isPySpace rbrace = false := by decide
  unfold pyStrip
  rw [List.dropWhile_cons, if_pos h1, List.cons_append, List.dropWhile_cons, if_neg (by simp [h2])]
  rw [show (lbrace :: ((mid ++ [rbrace]) ++ ['\n'])).reverse
      = '\n' :: ((rbrace :: mid.reverse) ++ [lbrace]) from by simp]
  rw [List.dropWhile_cons, if_pos h1, List.cons_append, List.dropWhile_cons, if_neg (by simp [h3])]
  simp

/-- JSON whitespace accepted between tokens. -/
def isJsonWs (c : Char) : Bool :=
  (c = ' ') || (c = '\t') || (c = '\n') || (c = '\r')

/-- Value of a hexadecimal digit, for string unicode escapes. -/
def hexVal (c : Char) : Option Nat :=
  if '0' ≤ c ∧ c ≤ '9' then some (c.toNat - 48)
  else if 'a' ≤ c ∧ c ≤ 'f' then some (c.toNat - 87)
  else if 'A' ≤ c ∧ c ≤ 'F' then some (c.toNat - 55)
  else none

/-- Parse the body of a JSON string after its opening quote, handling the
standard escapes; returns the decoded characters and the rest of the input. -/
def parseStringBody : List Char → Option (List Char × List Char)
  | [] => none
  | c :: rest =>
    if c = '"' then some ([], rest)
    else if c = '\\' then
      match rest with
      | [] => none
      | e :: rest2 =>
        if e = '"' then (parseStringBody rest2).map fun p => ('"' :: p.1, p.2)
        else if e = '\\' then (parseStringBody rest2).map fun p => ('\\' :: p.1, p.2)
        else if e = '/' then (parseStringBody rest2).map fun p => ('/' :: p.1, p.2)
        else if e = 'n' then (parseStringBody rest2).map fun p => ('\n' :: p.1, p.2)
        else if e = 't' then (parseStringBody rest2).map fun p => ('\t' :: p.1, p.2)
        else if e = 'r' then (parseStringBody rest2).map fun p => ('\r' :: p.1, p.2)
        else if e = 'b' then (parseStringBody rest2).map fun p => (Char.ofNat 8 :: p.1, p.2)
        else if e = 'f' then (parseStringBody rest2).map fun p => (Char.ofNat 12 :: p.1, p.2)
        else if e = 'u' then
          match rest2 with
          | h1 :: h2 :: h3 :: h4 :: rest3 =>
            match hexVal h1, hexVal h2, hexVal h3, hexVal h4 with
            | some a, some b, some c3, some d =>
              (parseStringBody rest3).map fun p =>
                (Char.ofNat (((a * 16 + b) * 16 + c3) * 16 + d) :: p.1, p.2)
            | _, _, _, _ => none
          | _ => none
        else none
    else (parseStringBody rest).map fun p => (c :: p.1, p.2)

/-- Decimal value of a digit run. -/
def digitsToNat (ds : List Char) : Nat :=
  ds.foldl (fun acc c => acc * 10 + (c.toNat - 48)) 0

/-- Parse a JSON integer numeral (this pipeline manipulates no fractional
numbers; a fractional or exponent suffix is left unconsumed and therefore
rejected at top level, matching a `JSONDecodeError` in the modelled uses). -/
def parseNumber (s : List Char) : Option (Int × List Char) :=
  match s with
  | '-' :: rest =>
    let ds := rest.takeWhile Char.isDigit
    if ds.isEmpty then none
    else some (-(digitsToNat ds : Int), rest.drop ds.length)
  | _ =>
    let ds := s.takeWhile Char.isDigit
    if ds.isEmpty then none
    else some ((digitsToNat ds : Int), s.drop ds.length)

mutual

/-- Fuel-indexed parser for one JSON value, following the JSON grammar as
`json.loads` accepts it (integer numerals only; see `parseNumber`). -/
def parseValue : Nat → List Char → Option (JVal × List Char)
  | 0, _ => none
  | fuel + 1, s =>
    match s.dropWhile isJsonWs with
    | [] => none
    | c :: rest =>
      if c = lbrace then parseObjBody fuel rest
      else if c = '[' then parseArrBody fuel rest
      else if c = '"' then (parseStringBody rest).map fun p => (.str (String.mk p.1), p.2)
      else if pyIsPrefixOf ['n', 'u', 'l', 'l'] (c :: rest) then some (.null, rest.drop 3)
      else if pyIsPrefixOf ['t', 'r', 'u', 'e'] (c :: rest) then some (.bool true, rest.drop 3)
      else if pyIsPrefixOf ['f', 'a', 'l', 's', 'e'] (c :: rest) then some (.bool false, rest.drop 4)
      else (parseNumber (c :: rest)).map fun p => (.num p.1, p.2)

/-- Parse what follows an opening brace: an empty object or its members. -/
def parseObjBody : Nat → List Char → Option (JVal × List Char)
  | 0, _ => none
  | fuel + 1, s =>
    match s.dropWhile isJsonWs with
    | [] => none
    | c :: rest =>
      if c = rbrace then some (.obj [], rest)
      else (parseMembers fuel (c :: rest)).map fun p => (.obj p.1, p.2)

/-- Parse one or more `"key": value` members up to the closing brace. -/
def parseMembers : Nat → List Char → Option (List (String × JVal) × List Char)
  | 0, _ => none
  | fuel + 1, s =>
    match s.dropWhile isJsonWs with
    | [] => none
    | c :: rest =>
      if c = '"' then
        match parseStringBody rest with
        | none => none
        | some (key, r1) =>
          match r1.dropWhile isJsonWs with
          | ':' :: r2 =>
            match parseValue fuel r2 with
            | none => none
            | some (v, r3) =>
              match r3.dropWhile isJsonWs with
              | [] => none
              | c2 :: r4 =>
                if c2 = ',' then
                  (parseMembers fuel r4).map fun p => ((String.mk key, v) :: p.1, p.2)
                else if c2 = rbrace then some ([(String.mk key, v)], r4)
                else none
          | _ => none
      else none

/-- Parse what follows an opening bracket: an empty array or its elements. -/
def parseArrBody : Nat → List Char → Option (JVal × List Char)
  | 0, _ => none
  | fuel + 1, s =>
    match s.dropWhile isJsonWs with
    | [] => none
    | c :: rest =>
      if c = ']' then some (.arr [], rest)
      else (parseElems fuel (c :: rest)).map fun p => (.arr p.1, p.2)

/-- Parse one or more array elements up to the closing bracket. -/
def parseElems : Nat → List Char → Option (List JVal × List Char)
  | 0, _ => none
  | fuel + 1, s =>
    match parseValue fuel s with
    | none => none
    | some (v, r1) =>
      match r1.dropWhile isJsonWs with
      | [] => none
      | c :: r2 =>
        if c = ',' then (parseElems fuel r2).map fun p => (v :: p.1, p.2)
        else if c = ']' then some ([v], r2)
        else none

end

/-- Model of `json.loads` on the JSON sublanguage this pipeline manipulates:
parse one value and require only whitespace after it; `none` models
`json.JSONDecodeError`.  The fuel is an upper bound on nesting depth that the
input length can never exhaust. -/
def jsonParse (s : List Char) : Option JVal :=
  match parseValue (3 * s.length + 9) s with
  | some (v, rest) => if (rest.dropWhile isJsonWs).isEmpty then some v else none
  | none => none

/-- Cleaning a brace-delimited body wrapped in a labelled fence with
backtick-free surrounding prose recovers the body exactly. -/
theorem cleanJsonResponse_fenceWrap (p1 p2 mid : List Char)
    (h1 : ∀ x ∈ p1, x ≠ backtick) (h2 : ∀ x ∈ p2, x ≠ backtick)
    (hm : ∀ x ∈ mid, x ≠ backtick) :
    cleanJsonResponse (fenceWrap p1 (lbrace :: (mid ++ [rbrace])) p2)
      = lbrace :: (mid ++ [rbrace]) := by
  have hJ : ∀ x ∈ lbrace :: (mid ++ [rbrace]), x ≠ backtick := by
    intro x hx
    rcases List.mem_cons.mp hx with h | h
    · subst h; decide
    · rcases List.mem_append.mp h with h | h
      · exact hm x h
      · simp at h; subst h; decide
  have hin : pyContains fenceJson (fenceWrap p1 (lbrace :: (mid ++ [rbrace])) p2) = true := by
    have h := pyContains_append_sep backtick [backtick, backtick, 'j', 's', 'o', 'n'] p1
      (('\n' :: ((lbrace :: (mid ++ [rbrace])) ++ ['\n']))
        ++ ([backtick, backtick, backtick] ++ ('\n' :: p2)))
    have hshape : fenceWrap p1 (lbrace :: (mid ++ [rbrace])) p2
        = p1 ++ (backtick :: [backtick, backtick, 'j', 's', 'o', 'n'])
            ++ (('\n' :: ((lbrace :: (mid ++ [rbrace])) ++ ['\n']))
              ++ ([backtick, backtick, backtick] ++ ('\n' :: p2))) := by
      simp [fenceWrap, fenceJson, fence3]
    rw [hshape]
    exact h
  unfold cleanJsonResponse
  simp only [hin, if_true]
  rw [fenceWrap_extract p1 (lbrace :: (mid ++ [rbrace])) p2 h1 h2 hJ]
  rw [pyStrip_wrapped_obj]
  have hf : pyFind lbrace (lbrace :: (mid ++ [rbrace])) = some 0 := by
    rw [pyFind, pyFindIdx]
    simp
  have hr : pyRFind rbrace (lbrace :: (mid ++ [rbrace])) = some (mid.length + 1) := by
    rw [pyRFind]
    rw [show (lbrace :: (mid ++ [rbrace])).reverse = rbrace :: (mid.reverse ++ [lbrace]) from by
      simp]
    rw [pyFindIdx]
    simp
  rw [hf, hr]
  simp only [List.drop_zero]
  rw [show mid.length + 1 + 1 = (lbrace :: (mid ++ [rbrace])).length from by simp]
  exact List.take_length _

/-- C3 (amended): for a syntactically valid JSON object text delimited by
braces and free of backticks, wrapped in a labelled fenced code block whose
leading and trailing prose are free of backticks, cleaning the response and
then parsing yields the same value as parsing the object text directly: the
cleaner recovers the fence interior and the brace slice returns it verbatim. -/
theorem cleanJson_roundTrip (p1 p2 mid : List Char)
    (h1 : ∀ x ∈ p1, x ≠ backtick) (h2 : ∀ x ∈ p2, x ≠ backtick)
    (hm : ∀ x ∈ mid, x ≠ backtick)
    (hvalid : ∃ v, jsonParse (lbrace :: (mid ++ [rbrace])) = some v) :
    jsonParse (cleanJsonResponse (fenceWrap p1 (lbrace :: (mid ++ [rbrace])) p2))
      = jsonParse (lbrace :: (mid ++ [rbrace])) := by
  obtain ⟨-, -⟩ := hvalid
  rw [cleanJsonResponse_fenceWrap p1 p2 mid h1 h2 hm]

/-- Witness for C3: a concrete prose-wrapped object round-trips. -/
theorem cleanJson_roundTrip_witness :
    jsonParse (cleanJsonResponse
        (fenceWrap "Claro: ".toList (lbrace :: ("\"a\": 1".toList ++ [rbrace])) " Fin.".toList))
      = jsonParse (lbrace :: ("\"a\": 1".toList ++ [rbrace])) :=
  cleanJson_roundTrip "Claro: ".toList " Fin.".toList "\"a\": 1".toList
    (by decide) (by decide) (by decide) ⟨.obj [("a", .num 1)], rfl⟩

/-- Leading prose containing a spurious labelled fence marker. -/
def proseTrap : List Char :=
  "Nota".toList ++ fenceJson ++ " intro ".toList

/-- The JSON text consisting of an empty object. -/
def objEmpty : List Char := [lbrace, rbrace]

/-- The JSON text consisting of an array holding one empty object. -/
def arrTrap : List Char := '[' :: lbrace :: rbrace :: [']']

/-- Cleaning the wrapped empty object behind prose that contains a spurious
labelled fence marker extracts prose instead of the object. -/
theorem cleanJson_proseTrap :
    cleanJsonResponse (fenceWrap proseTrap objEmpty []) = "intro".toList := by
  have hshape : fenceWrap proseTrap objEmpty []
      = "Nota".toList ++ (backtick :: [backtick, backtick, 'j', 's', 'o', 'n'])
          ++ (" intro ".toList ++ (backtick :: [backtick, backtick, 'j', 's', 'o', 'n'])
            ++ (('\n' :: objEmpty) ++ ('\n' :: fence3) ++ ['\n'])) := by
    simp [fenceWrap, proseTrap, fenceJson]
  have hin : pyContains fenceJson (fenceWrap proseTrap objEmpty []) = true := by
    rw [hshape]
    exact pyContains_append_sep backtick [backtick, backtick, 'j', 's', 'o', 'n'] _ _
  have hs1 : pySplit fenceJson (fenceWrap proseTrap objEmpty [])
      = "Nota".toList :: pySplit fenceJson
          (" intro ".toList ++ (backtick :: [backtick, backtick, 'j', 's', 'o', 'n'])
            ++ (('\n' :: objEmpty) ++ ('\n' :: fence3) ++ ['\n'])) := by
    rw [hshape]
    exact pySplit_append_sep backtick [backtick, backtick, 'j', 's', 'o', 'n'] _ _ (by decide)
  have hs2 : pySplit fenceJson
      (" intro ".toList ++ (backtick :: [backtick, backtick, 'j', 's', 'o', 'n'])
        ++ (('\n' :: objEmpty) ++ ('\n' :: fence3) ++ ['\n']))
      = " intro ".toList :: pySplit fenceJson
          (('\n' :: objEmpty) ++ ('\n' :: fence3) ++ ['\n']) :=
    pySplit_append_sep backtick [backtick, backtick, 'j', 's', 'o', 'n'] _ _ (by decide)
  have hs3 : pySplit fence3 " intro ".toList = [" intro ".toList] :=
    pySplit_of_not_contains _ _ (by decide)
  unfold cleanJsonResponse
  simp only [hin, if_true]
  rw [hs1, hs2, List.getD_cons_succ, List.getD_cons_zero, hs3, List.getD_cons_zero]
  rfl

/-- Cleaning the fenced wrap of the array text brace-slices it down to the
inner empty object. -/
theorem cleanJson_arrTrap :
    cleanJsonResponse (fenceWrap [] arrTrap []) = [lbrace, rbrace] := by
  have hin : pyContains fenceJson (fenceWrap [] arrTrap []) = true := by decide
  unfold cleanJsonResponse
  simp only [hin, if_true]
  rw [fenceWrap_extract [] arrTrap [] (by decide) (by decide) (by decide)]
  rfl

/-- C3 counterexample: the claim as stated fails.  (a) With leading prose that
itself contains a labelled fence marker, cleaning the wrapped empty object
extracts a prose fragment and parsing fails, while the unwrapped object parses
to the empty object (directly, and identically after cleaning).  (b) For the
valid top-level array holding one empty object, cleaning the wrapped text
brace-slices it down to the inner object, which differs from parsing the
array directly. -/
theorem cleanJson_roundTrip_counterexample :
    jsonParse (cleanJsonResponse (fenceWrap proseTrap objEmpty [])) = none ∧
    jsonParse objEmpty = some (.obj []) ∧
    jsonParse (cleanJsonResponse objEmpty) = some (.obj []) ∧
    jsonParse (cleanJsonResponse (fenceWrap [] arrTrap [])) = some (.obj []) ∧
    jsonParse arrTrap = some (.arr [.obj []]) ∧
    (none : Option JVal) ≠ some (JVal.obj []) ∧
    some (JVal.obj []) ≠ some (JVal.arr [JVal.obj []]) := by
  refine ⟨?_, rfl, rfl, ?_, rfl, ?_, ?_⟩
  · rw [cleanJson_proseTrap]; rfl
  · rw [cleanJson_arrTrap]; rfl
  · intro h
    exact Option.noConfusion h
  · intro h
    exact JVal.noConfusion (Option.some.inj h)

/-- The corrective instruction appended to the prompt after a failed parse
(llm_processor.py line 168). -/
def correctionNote : List Char :=
  ("\n\nNOTA: El JSON anterior no era válido. " ++
    "Asegúrate de generar JSON perfectamente válido esta vez.").toList

/-- The salvage record returned when every parse attempt failed
(llm_processor.py lines 162-166); `raw` is the stripped response text held in
the local `response_text`. -/
def errorRecord (raw : List Char) : List (String × JVal) :=
  [("error", .str "Failed to parse LLM response"),
   ("raw_response", .str (String.mk raw)),
   ("informacion_paciente", .obj [])]

/-- The retry loop of `LLMProcessor.extract_structured_data`
(llm_processor.py lines 127-172), parameterised by the LLM as a function from
prompt to generated text or a non-JSON exception (re-raised by the bare
`except` at lines 170-172).  `attemptsLeft` counts the loop iterations still
available; `trace` records the prompts issued so far, one per generation
call.  The `.ok none` outcome models Python falling off the `for` loop and
returning `None`, which only happens for `max_retries = 0`. -/
def extractLoop (llm : List Char → Except PyErr (List Char)) :
    List Char → Nat → List (List Char) → Except PyErr (Option (JVal × List (List Char)))
  | _, 0, _ => .ok none
  | prompt, n + 1, trace =>
    match llm prompt with
    | .error e => .error e
    | .ok generated =>
      let responseText := pyStrip generated
      let cleaned := cleanJsonResponse responseText
      match jsonParse cleaned with
      | some v => .ok (some (v, trace ++ [prompt]))
      | none =>
        if n = 0 then
          .ok (some (.obj (errorRecord responseText), trace ++ [prompt]))
        else
          extractLoop llm (prompt ++ correctionNote) n (trace ++ [prompt])

/-- Model of `LLMProcessor.extract_structured_data` (llm_processor.py lines
112-172).  The source builds the initial prompt from the transcript via
`create_extraction_prompt`; no verified property depends on the prompt text,
so the loop is modelled over the already-built initial prompt.  Alongside the
parsed value the list of prompts issued is exposed for specification. -/
def extractStructuredData (llm : List Char → Except PyErr (List Char))
    (prompt : List Char) (maxRetries : Nat := 3) :
    Except PyErr (Option (JVal × List (List Char))) :=
  extractLoop llm prompt maxRetries []

/-- The prompt of attempt `i` (0-based): the initial prompt with `i` copies of
the corrective note appended, reflecting the cumulative `prompt +=` retries. -/
def promptAt (prompt : List Char) (i : Nat) : List Char :=
  prompt ++ (List.replicate i correctionNote).flatten

/-- One retry step advances the attempt prompt by one corrective note. -/
theorem promptAt_succ (prompt : List Char) (i : Nat) :
    promptAt prompt (i + 1) = promptAt (prompt ++ correctionNote) i := by
  simp [promptAt, List.replicate_succ]

/-- Unfolding one retry layer of the attempt-prompt sequence. -/
theorem range_map_promptAt (prompt : List Char) (k : Nat) :
    List.map (promptAt prompt) (List.range (k + 1))
      = prompt :: List.map (promptAt (prompt ++ correctionNote)) (List.range k) := by
  rw [List.range_succ_eq_map]
  simp only [List.map_cons, List.map_map]
  congr 1
  · simp [promptAt]
  · refine List.map_congr_left ?_
    intro i _
    simp only [Function.comp_apply]
    exact promptAt_succ prompt i

/-- When generation always succeeds but no attempt parses, the retry loop
runs all remaining attempts with cumulatively growing prompts and ends in the
salvage record built from the final stripped response. -/
theorem extractLoop_allFail (llm : List Char → Except PyErr (List Char))
    (hfail : ∀ p, ∃ r, llm p = .ok r ∧ jsonParse (cleanJsonResponse (pyStrip r)) = none) :
    ∀ n prompt trace, ∃ r, llm (promptAt prompt n) = .ok r ∧
      extractLoop llm prompt (n + 1) trace
        = .ok (some (.obj (errorRecord (pyStrip r)),
            trace ++ (List.range (n + 1)).map (promptAt prompt))) := by
  intro n
  induction n with
  | zero =>
    intro prompt trace
    obtain ⟨r, hok, hparse⟩ := hfail prompt
    refine ⟨r, by simpa [promptAt] using hok, ?_⟩
    rw [extractLoop, hok]
    simp only [hparse, if_pos rfl]
    simp [promptAt, List.range_succ]
  | succ m ih =>
    intro prompt trace
    obtain ⟨r0, hok0, hparse0⟩ := hfail prompt
    obtain ⟨r, hok, hloop⟩ := ih (prompt ++ correctionNote) (trace ++ [prompt])
    refine ⟨r, by rwa [promptAt_succ], ?_⟩
    rw [extractLoop, hok0]
    simp only [hparse0, Nat.succ_ne_zero, if_neg (Nat.succ_ne_zero m)]
    rw [hloop, range_map_promptAt prompt (m + 1)]
    simp

/-- C1 (amended): with an LLM stub that always answers but whose output never
parses, `extract_structured_data` makes exactly `maxRetries` (default 3)
generation attempts, does not raise, and returns a record whose `error` field
is set and whose `raw_response` field holds the final raw LLM response text
after leading/trailing-whitespace stripping (the source stores
`response.text.strip()`, not the verbatim text); the prompt of attempt `i` is
the initial prompt with `i` copies of the corrective note appended. -/
theorem extractStructuredData_allFail (llm : List Char → Except PyErr (List Char))
    (prompt : List Char) (n : Nat) (hn : 0 < n)
    (hfail : ∀ p, ∃ r, llm p = .ok r ∧ jsonParse (cleanJsonResponse (pyStrip r)) = none) :
    ∃ r, llm (promptAt prompt (n - 1)) = .ok r ∧
      extractStructuredData llm prompt n
        = .ok (some (.obj (errorRecord (pyStrip r)), (List.range n).map (promptAt prompt))) ∧
      List.lookup "error" (errorRecord (pyStrip r))
        = some (.str "Failed to parse LLM response") ∧
      List.lookup "raw_response" (errorRecord (pyStrip r))
        = some (.str (String.mk (pyStrip r))) ∧
      ((List.range n).map (promptAt prompt)).length = n := by
  obtain ⟨m, rfl⟩ : ∃ m, n = m + 1 := ⟨n - 1, (Nat.succ_pred_eq_of_pos hn).symm⟩
  obtain ⟨r, hok, hloop⟩ := extractLoop_allFail llm hfail m prompt []
  exact ⟨r, by simpa using hok, by simpa [extractStructuredData] using hloop, rfl, rfl, by simp⟩

/-- Witness for C1: a stub constantly answering the unparsable text x runs
all three default attempts and ends in the salvage record. -/
theorem extractStructuredData_allFail_witness :
    0 < 3 ∧
    ∃ r, (fun _ : List Char => (.ok ['x'] : Except PyErr (List Char))) (promptAt [] (3 - 1)) = .ok r ∧
      extractStructuredData (fun _ => .ok ['x']) [] 3
        = .ok (some (.obj (errorRecord (pyStrip r)), (List.range 3).map (promptAt []))) ∧
      List.lookup "error" (errorRecord (pyStrip r))
        = some (.str "Failed to parse LLM response") ∧
      List.lookup "raw_response" (errorRecord (pyStrip r))
        = some (.str (String.mk (pyStrip r))) ∧
      ((List.range 3).map (promptAt [])).length = 3 :=
  ⟨by decide,
    extractStructuredData_allFail (fun _ => .ok ['x']) [] 3 (by decide)
      (fun _ => ⟨['x'], rfl, rfl⟩)⟩

/-- C1 counterexample: the claimed "raw_response preserved verbatim" fails.
With a stub always returning the two-character text space-x, the stored
`raw_response` is the stripped text x, not the verbatim response space-x. -/
theorem extractStructuredData_verbatim_counterexample :
    extractStructuredData (fun _ => .ok [' ', 'x']) [] 3
      = .ok (some (.obj (errorRecord ['x']),
          [[], correctionNote, correctionNote ++ correctionNote])) ∧
    List.lookup "raw_response" (errorRecord ['x']) = some (.str "x") ∧
    ("x" : String) ≠ " x" := by
  refine ⟨rfl, rfl, by decide⟩

/-- C10: on total parse failure the salvage record maps `informacion_paciente`
to an empty mapping and holds no clinical sections, so the schema validator
passes its presence check yet returns invalid with the no-meaningful-data
reason. -/
theorem errorRecord_validation (llm : List Char → Except PyErr (List Char))
    (prompt : List Char) (n : Nat) (hn : 0 < n)
    (hfail : ∀ p, ∃ r, llm p = .ok r ∧ jsonParse (cleanJsonResponse (pyStrip r)) = none) :
    ∃ r, extractStructuredData llm prompt n
        = .ok (some (.obj (errorRecord (pyStrip r)), (List.range n).map (promptAt prompt))) ∧
      List.lookup "informacion_paciente" (errorRecord (pyStrip r)) = some (.obj []) ∧
      (∀ s ∈ clinicalSections, List.lookup s (errorRecord (pyStrip r)) = none) ∧
      validateAgainstSchema (errorRecord (pyStrip r))
        = (false, some "No meaningful medical data extracted") := by
  obtain ⟨m, rfl⟩ : ∃ m, n = m + 1 := ⟨n - 1, (Nat.succ_pred_eq_of_pos hn).symm⟩
  obtain ⟨r, hok, hloop⟩ := extractLoop_allFail llm hfail m prompt []
  refine ⟨r, by simpa [extractStructuredData] using hloop, rfl, ?_, rfl⟩
  intro s hs
  simp only [clinicalSections, List.mem_cons, List.mem_singleton] at hs
  rcases hs with rfl | rfl | rfl | rfl | h
  · rfl
  · rfl
  · rfl
  · rfl
  · cases h

/-- Witness for C10: with a stub constantly answering the unparsable text y,
the salvage record passes the presence check and fails content validation. -/
theorem errorRecord_validation_witness :
    0 < 2 ∧
    ∃ r, extractStructuredData (fun _ => .ok ['y']) ['q'] 2
        = .ok (some (.obj (errorRecord (pyStrip r)), (List.range 2).map (promptAt ['q']))) ∧
      List.lookup "informacion_paciente" (errorRecord (pyStrip r)) = some (.obj []) ∧
      (∀ s ∈ clinicalSections, List.lookup s (errorRecord (pyStrip r)) = none) ∧
      validateAgainstSchema (errorRecord (pyStrip r))
        = (false, some "No meaningful medical data extracted") :=
  ⟨by decide,
    errorRecord_validation (fun _ => .ok ['y']) ['q'] 2 (by decide)
      (fun _ => ⟨['y'], rfl, rfl⟩)⟩

/-- Join text pieces with a separator, modelling Python `sep.join`. -/
def joinSep (sep : List Char) : List (List Char) → List Char
  | [] => []
  | [x] => x
  | x :: y :: rest => x ++ sep ++ joinSep sep (y :: rest)

/-- Python `repr` of a JSON-derived value, used when `str` renders a
container.  String escaping inside `repr` is not modelled; no verified
property depends on the rendered characters, only on the emitted requests'
shape. -/
def pyRepr : JVal → List Char
  | .null => "None".toList
  | .bool true => "True".toList
  | .bool false => "False".toList
  | .num n => (toString n).toList
  | .str s => squote :: (s.toList ++ [squote])
  | .arr l => '[' :: (joinSep ", ".toList (l.attach.map fun x => pyRepr x.1) ++ [']'])
  | .obj l => lbrace :: (joinSep ", ".toList
      (l.attach.map fun x =>
        (squote :: (x.1.1.toList ++ [squote])) ++ ": ".toList ++ pyRepr x.1.2)
      ++ [rbrace])
termination_by v => sizeOf v
decreasing_by
  · have h := List.sizeOf_lt_of_mem x.2
    simp only [JVal.arr.sizeOf_spec]
    omega
  · have h := List.sizeOf_lt_of_mem x.2
    have h2 : sizeOf x.1.2 < sizeOf x.1 := by
      obtain ⟨a, b⟩ := x.1
      simp only [Prod.mk.sizeOf_spec]
      omega
    simp only [JVal.obj.sizeOf_spec]
    omega

/-- Python `str` of a JSON-derived value: strings render as themselves,
everything else as its `repr`. -/
def pyStr : JVal → List Char
  | .str s => s.toList
  | v => pyRepr v

/-- Worker for `pyTitle`, tracking whether the previous character was a
letter. -/
def pyTitleGo : Bool → List Char → List Char
  | _, [] => []
  | prevAlpha, c :: rest =>
    if c.isAlpha then
      (if prevAlpha then c.toLower else c.toUpper) :: pyTitleGo true rest
    else c :: pyTitleGo false rest

/-- Python `str.title()` restricted to ASCII letters, as applied to the
vital-sign keys (ASCII identifiers). -/
def pyTitle (s : List Char) : List Char := pyTitleGo false s

/-- Python `str.replace` of underscores by spaces. -/
def pyReplaceUnderscore (s : List Char) : List Char :=
  s.map fun c => if c = '_' then ' ' else c

/-- Python `dict.get(key, default)`. -/
def pyGetD (d : List (String × JVal)) (k : String) (dflt : JVal) : JVal :=
  (List.lookup k d).getD dflt

/-- Python attribute access `.get`/`.items` requires a dict; other values
raise `AttributeError`. -/
def asDict : JVal → Except PyErr (List (String × JVal))
  | .obj l => .ok l
  | _ => .error ⟨"AttributeError"⟩

/-- Python iteration over a JSON-derived value: lists yield their elements,
strings their characters, dicts their keys; other values raise `TypeError`. -/
def pyIterate : JVal → Except PyErr (List JVal)
  | .arr l => .ok l
  | .str s => .ok (s.toList.map fun c => .str (String.mk [c]))
  | .obj l => .ok (l.map fun kv => .str kv.1)
  | _ => .error ⟨"TypeError"⟩

/-- One Google Docs batch-update request as emitted by the builder. -/
inductive DocRequest where
  | insertText (index : Nat) (text : List Char) : DocRequest
  | updateTextStyle (startIndex endIndex : Nat) (bold : Bool) : DocRequest

/-- Running cursor and accumulated requests of the builder. -/
structure BuildState where
  index : Nat
  requests : List DocRequest

/-- One `add_text` call: the value to render, its weight and whether a
newline is appended. -/
structure TextCmd where
  text : JVal
  bold : Bool
  newline : Bool

/-- Model of the local helper `add_text` (docs_generator.py lines 81-102):
render the value (`None` renders empty), append a newline when requested,
skip entirely when the content is empty, emit the insert, emit the bold-range
style only for non-empty text, and advance the cursor by the full inserted
length. -/
def addText (st : BuildState) (c : TextCmd) : BuildState :=
  let textStr : List Char :=
    match c.text with
    | .null => []
    | v => pyStr v
  let content := textStr ++ (if c.newline then ['\n'] else [])
  if content.isEmpty then st
  else
    let withInsert := st.requests ++ [.insertText st.index content]
    let withStyle :=
      if textStr.length > 0 then
        withInsert ++ [.updateTextStyle st.index (st.index + textStr.length) c.bold]
      else withInsert
    { index := st.index + content.length, requests := withStyle }

/-- The diagnosis field read at docs_generator.py line 158:
`ev.get('diagnostico', ev.get('diagnostico_principal', ''))`. -/
def diagnosisValue (ev : List (String × JVal)) : JVal :=
  pyGetD ev "diagnostico" (pyGetD ev "diagnostico_principal" (.str ""))

/-- The medications field read at docs_generator.py line 170:
`plan.get('medicamentos', plan.get('medicamentos_prescritos', []))`. -/
def medicationsValue (plan : List (String × JVal)) : JVal :=
  pyGetD plan "medicamentos" (pyGetD plan "medicamentos_prescritos" (.arr []))

/-- The `add_text` calls issued by
`GoogleDocsGenerator._build_document_requests` (docs_generator.py lines
104-190), in source order.  No call argument depends on the running cursor,
so the builder factors into computing this list and folding `addText` over
it; the error cases are the `AttributeError`/`TypeError` raises on
wrongly-typed sections. -/
def bodyCmds (data : List (String × JVal)) : Except PyErr (List TextCmd) := do
  let info ← asDict (pyGetD data "informacion_paciente" (.obj []))
  let meta ← asDict (pyGetD data "metadata" (.obj []))
  let subj ← asDict (pyGetD data "subjetivo" (.obj []))
  let objv ← asDict (pyGetD data "objetivo" (.obj []))
  let vits ← asDict (pyGetD objv "signos_vitales" (.obj []))
  let ev ← asDict (pyGetD data "evaluacion" (.obj []))
  let plan ← asDict (pyGetD data "plan" (.obj []))
  let recos ← pyIterate (pyGetD plan "recomendaciones" (.arr []))
  let header : List TextCmd :=
    [ ⟨.str "\n", false, true⟩,
      ⟨.str (String.mk ("FECHA: ".toList
        ++ pyStr (pyGetD meta "fecha_consulta" (.str "__________"))
        ++ "\t\tEDAD: ".toList ++ pyStr (pyGetD info "edad" (.str "____")))), false, true⟩,
      ⟨.str (String.mk ("NOMBRE: ".toList
        ++ pyStr (pyGetD info "nombre_del_paciente" (.str "____________________"))
        ++ "\t\tFECHA DE NACIMIENTO: ".toList
        ++ pyStr (pyGetD info "fecha_de_nacimiento" (.str "__________")))), false, true⟩,
      ⟨.str (String.mk ("ESTADO CIVIL: ".toList
        ++ pyStr (pyGetD info "estado_civil" (.str "__________"))
        ++ "\t\tSEXO: ".toList ++ pyStr (pyGetD info "genero" (.str "__________")))),
        false, true⟩,
      ⟨.str (String.mk ("DOMICILIO: ".toList
        ++ pyStr (pyGetD info "domicilio"
          (.str "________________________________________")))), false, true⟩,
      ⟨.str (String.mk ("TEL: ".toList ++ pyStr (pyGetD info "telefono" (.str "__________"))
        ++ "\t\tCELULAR: ".toList ++ pyStr (pyGetD info "celular" (.str "__________")))),
        false, true⟩,
      ⟨.str (String.mk (List.replicate 80 '-')), false, true⟩,
      ⟨.str "RESUMEN DE CONSULTA (SOAP)", false, true⟩,
      ⟨.str (String.mk (List.replicate 80 '-' ++ ['\n'])), false, true⟩ ]
  let sintomas := pyGetD subj "sintomas" (.arr [])
  let sintomasCmds : List TextCmd :=
    match sintomas with
    | .arr l => l.map fun s => ⟨.str (String.mk (" • ".toList ++ pyStr s)), false, true⟩
    | _ => []
  let subjCmds : List TextCmd :=
    [ ⟨.str "SUBJETIVO (S)", true, true⟩,
      ⟨.str "Motivo de Consulta: ", true, false⟩,
      ⟨pyGetD subj "motivo_de_consulta" (.str ""), false, true⟩,
      ⟨.str "Síntomas: ", true, true⟩ ]
    ++ sintomasCmds
    ++ [ ⟨.str "Historia de la Enfermedad: ", true, true⟩,
         ⟨pyGetD subj "historia_de_enfermedad_actual" (.str ""), false, true⟩ ]
    ++ (if pyTruthy (pyGetD subj "duracion" .null) then
          [⟨.str (String.mk ("Duración: ".toList ++ pyStr (pyGetD subj "duracion" .null))),
            false, true⟩]
        else [])
    ++ [ ⟨.str "", false, true⟩ ]
  let vitalsStr := joinSep ", ".toList (vits.map fun kv =>
    pyTitle (pyReplaceUnderscore kv.1.toList) ++ ": ".toList ++ pyStr kv.2)
  let objCmds : List TextCmd :=
    [ ⟨.str "OBJETIVO (O)", true, true⟩,
      ⟨.str "Signos Vitales: ", true, false⟩,
      ⟨.str (String.mk (if vitalsStr.isEmpty then "No registrados".toList else vitalsStr)),
        false, true⟩,
      ⟨.str "Examen Físico: ", true, true⟩,
      ⟨pyGetD objv "examen_fisico" (.str ""), false, true⟩,
      ⟨.str "Hallazgos: ", true, true⟩,
      ⟨pyGetD objv "hallazgos" (.str ""), false, true⟩,
      ⟨.str "", false, true⟩ ]
  let evCmds : List TextCmd :=
    [ ⟨.str "EVALUACIÓN (A) -- Assessment", true, true⟩,
      ⟨.str "Diagnóstico: ", true, false⟩,
      ⟨diagnosisValue ev, false, true⟩,
      ⟨.str "Impresión Clínica: ", true, false⟩,
      ⟨pyGetD ev "impresion_clinica" (.str ""), false, true⟩,
      ⟨.str "", false, true⟩ ]
  let medCmds : List TextCmd :=
    match medicationsValue plan with
    | .arr l => l.map fun m =>
        match m with
        | .obj md => ⟨.str (String.mk (" • ".toList
            ++ pyStr (pyGetD md "nombre" .null) ++ " - ".toList
            ++ pyStr (pyGetD md "dosis" .null) ++ " (".toList
            ++ pyStr (pyGetD md "frecuencia" .null) ++ ")".toList)), false, true⟩
        | _ => ⟨.str (String.mk (" • ".toList ++ pyStr m)), false, true⟩
    | _ => []
  let recoCmds : List TextCmd :=
    recos.map fun r => ⟨.str (String.mk (" • ".toList ++ pyStr r)), false, true⟩
  let estudios := pyGetD plan "estudios_solicitados" (.arr [])
  let estudiosList := match estudios with | .arr l => l | v => [v]
  let estCmds : List TextCmd :=
    estudiosList.map fun e => ⟨.str (String.mk (" • ".toList ++ pyStr e)), false, true⟩
  let planCmds : List TextCmd :=
    [ ⟨.str "PLAN (P)", true, true⟩,
      ⟨.str "Medicamentos Prescritos:", true, true⟩ ]
    ++ medCmds
    ++ [ ⟨.str "Recomendaciones:", true, true⟩ ] ++ recoCmds
    ++ [ ⟨.str "Estudios Solicitados:", true, true⟩ ] ++ estCmds
    ++ [ ⟨.str "Seguimiento:", true, true⟩,
         ⟨pyGetD plan "seguimiento" (.str ""), false, true⟩ ]
  return header ++ subjCmds ++ objCmds ++ evCmds ++ planCmds

/-- Model of `GoogleDocsGenerator._build_document_requests` (docs_generator.py
lines 72-191): compute the `add_text` calls and fold them from the start
offset.  The source returns only the request list; the final cursor is
exposed here so the insertion invariant can be stated. -/
def buildDocumentRequests (data : List (String × JVal)) (startIndex : Nat) :
    Except PyErr BuildState :=
  (bodyCmds data).map fun cmds => cmds.foldl addText ⟨startIndex, []⟩

/-- Total length of the text inserted by a request list. -/
def insertLenSum : List DocRequest → Nat
  | [] => 0
  | .insertText _ t :: rest => t.length + insertLenSum rest
  | .updateTextStyle _ _ _ :: rest => insertLenSum rest

/-- Every style request in the list covers a non-empty range. -/
def stylesNonempty : List DocRequest → Bool
  | [] => true
  | .insertText _ _ :: rest => stylesNonempty rest
  | .updateTextStyle s e _ :: rest => decide (s < e) && stylesNonempty rest

/-- Insert lengths add over concatenation. -/
theorem insertLenSum_append (l1 l2 : List DocRequest) :
    insertLenSum (l1 ++ l2) = insertLenSum l1 + insertLenSum l2 := by
  induction l1 with
  | nil => simp [insertLenSum]
  | cons r rest ih =>
    cases r <;> simp [insertLenSum, ih, Nat.add_assoc]

/-- Style non-emptiness distributes over concatenation. -/
theorem stylesNonempty_append (l1 l2 : List DocRequest) :
    stylesNonempty (l1 ++ l2) = (stylesNonempty l1 && stylesNonempty l2) := by
  induction l1 with
  | nil => simp [stylesNonempty]
  | cons r rest ih =>
    cases r <;> simp [stylesNonempty, ih, Bool.and_assoc]

/-- One `add_text` call preserves the cursor invariant and range validity. -/
theorem addText_invariant (st : BuildState) (c : TextCmd) (base : Nat)
    (h1 : st.index = base + insertLenSum st.requests)
    (h2 : stylesNonempty st.requests = true) :
    (addText st c).index = base + insertLenSum (addText st c).requests ∧
      stylesNonempty (addText st c).requests = true := by
  unfold addText
  set textStr : List Char :=
    (match c.text with
      | .null => []
      | v => pyStr v) with htext
  by_cases hempty : (textStr ++ (if c.newline then ['\n'] else [])).isEmpty
  · simp only [hempty, if_true]
    exact ⟨h1, h2⟩
  · simp only [hempty, if_false]
    by_cases hlen : textStr.length > 0
    · simp only [hlen, if_true]
      constructor
      · simp [insertLenSum_append, insertLenSum, h1]
        omega
      · simp [stylesNonempty_append, stylesNonempty, h2]
        omega
    · simp only [hlen, if_false]
      constructor
      · simp [insertLenSum_append, insertLenSum, h1]
        omega
      · simp [stylesNonempty_append, stylesNonempty, h2]

/-- Folding `add_text` preserves the cursor invariant and range validity. -/
theorem foldl_addText_invariant (cmds : List TextCmd) (st : BuildState) (base : Nat)
    (h1 : st.index = base + insertLenSum st.requests)
    (h2 : stylesNonempty st.requests = true) :
    (cmds.foldl addText st).index = base + insertLenSum (cmds.foldl addText st).requests ∧
      stylesNonempty (cmds.foldl addText st).requests = true := by
  induction cmds generalizing st with
  | nil => exact ⟨h1, h2⟩
  | cons c rest ih =>
    obtain ⟨g1, g2⟩ := addText_invariant st c base h1 h2
    exact ih (addText st c) g1 g2

/-- C2: whenever `_build_document_requests` finishes, the running insertion
index equals the start offset plus the total length of all inserted text
blocks (each including its trailing newline when present), and no emitted
`updateTextStyle` request has a zero-length range — a zero-length text field
yields at most an insert, never a style operation. -/
theorem buildDocumentRequests_invariant (data : List (String × JVal)) (startIndex : Nat) :
    match buildDocumentRequests data startIndex with
    | .error _ => True
    | .ok st => st.index = startIndex + insertLenSum st.requests ∧
        stylesNonempty st.requests = true := by
  unfold buildDocumentRequests
  cases h : bodyCmds data with
  | error e => simp [h, Except.map]
  | ok cmds =>
    simp only [h, Except.map]
    exact foldl_addText_invariant cmds ⟨startIndex, []⟩ startIndex (by simp [insertLenSum]) rfl

/-- C9: the renderer reads the diagnosis from `diagnostico`, falling back to
`diagnostico_principal` only when `diagnostico` is absent, and reads the
medications from `medicamentos`, falling back to `medicamentos_prescritos`
only when `medicamentos` is absent: a present canonical key shadows the
alias. -/
theorem rendererFieldFallbacks (ev plan : List (String × JVal)) :
    (∀ v, List.lookup "diagnostico" ev = some v → diagnosisValue ev = v) ∧
    (List.lookup "diagnostico" ev = none →
      diagnosisValue ev = pyGetD ev "diagnostico_principal" (.str "")) ∧
    (∀ v, List.lookup "medicamentos" plan = some v → medicationsValue plan = v) ∧
    (List.lookup "medicamentos" plan = none →
      medicationsValue plan = pyGetD plan "medicamentos_prescritos" (.arr [])) := by
  refine ⟨fun v h => ?_, fun h => ?_, fun v h => ?_, fun h => ?_⟩ <;>
    simp [diagnosisValue, medicationsValue, pyGetD, h]

/-- Witness for C9: when both diagnosis keys are present the canonical one
wins, and an absent `medicamentos` falls back to the alias. -/
theorem rendererFieldFallbacks_witness :
    diagnosisValue [("diagnostico", .str "A"), ("diagnostico_principal", .str "B")]
      = .str "A" ∧
    medicationsValue [("medicamentos_prescritos", .arr [.str "m"])] = .arr [.str "m"] := by
  constructor
  · exact (rendererFieldFallbacks
      [("diagnostico", .str "A"), ("diagnostico_principal", .str "B")] []).1 (.str "A") rfl
  · have h := (rendererFieldFallbacks [] [("medicamentos_prescritos", .arr [.str "m"])]).2.2.2 rfl
    simpa [pyGetD] using h

end ClinIA
